import Mathlib

/-!
# Signature validation library (`libs/cpp/validation`)

A shallow embedding of `verify.cpp`, `c_api.cpp`, `verify_cli.cpp` and
`pybind.cpp`.

Conventions of the embedding:

* a `std::string` is the list of its bytes (`List Nat`, every byte below 256);
  whether plain `char` is a signed type is a property of the platform and a
  parameter `char_signed` of the embedding;
* a `const char *` is `Option (List Nat)`: `none` is the null pointer and
  `some mem` points at the bytes `mem`; the C string it denotes is the part
  of `mem` before the first zero byte;
* the three libsodium entry points used by `verify_signature` are external to
  the repository.  The value returned by `sodium_init()` and the function
  `crypto_sign_verify_detached` are parameters of the embedding;
  `sodium_base642bin` is transcribed from libsodium's `codecs.c`, specialised
  to the arguments `verify.cpp` passes (`ignore = NULL`, `bin_len = NULL`,
  `b64_end = NULL`, `sodium_base64_VARIANT_ORIGINAL`).
-/

namespace Validation

/-! ## libsodium constants -/

/-- Length of an Ed25519 signature, `crypto_sign_BYTES`. -/
def crypto_sign_BYTES : Nat := 64

/-- Length of an Ed25519 public key, `crypto_sign_PUBLICKEYBYTES`. -/
def crypto_sign_PUBLICKEYBYTES : Nat := 32

/-- Type of the detached verification primitive
`crypto_sign_verify_detached(sig, m, mlen, pk)`: signature buffer, message
bytes, public key buffer, returning a C `int` (0 on success, -1 otherwise). -/
abbrev VerifyPrim := List Nat → List Nat → List Nat → Int

/-! ## `sodium_base642bin` (libsodium `codecs.c`) -/

/-- Conversion of a `char` holding the byte `c` to `unsigned int`, as in the
casts `(unsigned int) (x)` applied to the promoted `char`: where plain `char`
is signed the bytes from 128 on are negative and wrap around `2 ^ 32`. -/
def char_to_uint (char_signed : Bool) (c : Nat) : Nat :=
  if char_signed = true ∧ 128 ≤ c then c + (2 ^ 32 - 256) else c

/-- Macro `EQ(x, y)` of `codecs.c` on `unsigned int` values:
`((((0U - (x ^ y)) >> 8) & 0xFF) ^ 0xFF)`. -/
def EQ (x y : Nat) : Nat :=
  ((((2 ^ 32 - (x ^^^ y)) % 2 ^ 32) >>> 8) &&& 0xFF) ^^^ 0xFF

/-- Macro `GT(x, y)` of `codecs.c`: `(((y - x) >> 8) & 0xFF)` on `unsigned int`. -/
def GT (x y : Nat) : Nat :=
  (((y + 2 ^ 32 - x) % 2 ^ 32) >>> 8) &&& 0xFF

/-- Macro `GE(x, y)` of `codecs.c`: `(GT(y, x) ^ 0xFF)`. -/
def GE (x y : Nat) : Nat := GT y x ^^^ 0xFF

/-- Macro `LE(x, y)` of `codecs.c`: `GE(y, x)`. -/
def LE (x y : Nat) : Nat := GE y x

/-- The function `b64_char_to_byte` of `codecs.c`, on the `unsigned int` value
`c` of its argument: the 6-bit value of a character of the standard alphabet
and `0xFF` for a character that is not recognised.  The differences `c - 'A'`,
`c - ('a' - 26)`, `c - ('0' - 52)` are taken modulo `2 ^ 32`.  The macros are
written for arguments below 256: on the value of a negative `char` both `EQ`
tests give `0xFF` and the result is 63. -/
def b64_char_to_byte (c : Nat) : Nat :=
  let x :=
    (GE c 65 &&& LE c 90 &&& ((c + 2 ^ 32 - 65) % 2 ^ 32)) |||
    (GE c 97 &&& LE c 122 &&& ((c + 2 ^ 32 - 71) % 2 ^ 32)) |||
    (GE c 48 &&& LE c 57 &&& ((c + 4) % 2 ^ 32)) |||
    (EQ c 43 &&& 62) |||
    (EQ c 47 &&& 63)
  x ||| (EQ x 0 &&& (EQ c 65 ^^^ 0xFF))

/-- Local variables of `sodium_base642bin` together with the output buffer. -/
structure B64Vars where
  acc : Nat
  acc_len : Nat
  b64_pos : Nat
  bin_pos : Nat
  ret : Int
  bin : List Nat
deriving DecidableEq, Repr

/-- The main loop `while (b64_pos < b64_len)` of `sodium_base642bin`, run on
the unread characters `b64[b64_pos ..]`.  With `ignore = NULL` a character
that is not recognised (`d == 0xFF`) leaves the loop; a byte that does not fit
into `bin_maxlen` sets `ret = -1` and leaves the loop.  `acc` is an
`unsigned int`. -/
def b64_loop (char_signed : Bool) (bin_maxlen : Nat) : List Nat → B64Vars → B64Vars
  | [], v => v
  | c :: rest, v =>
    let d := b64_char_to_byte (char_to_uint char_signed c)
    if d = 0xFF then v
    else
      let acc := ((v.acc <<< 6) + d) % 2 ^ 32
      let acc_len := v.acc_len + 6
      if acc_len ≥ 8 then
        let acc_len := acc_len - 8
        if v.bin_pos ≥ bin_maxlen then
          { v with acc := acc, acc_len := acc_len, ret := -1 }
        else
          b64_loop char_signed bin_maxlen rest
            { v with
              acc := acc
              acc_len := acc_len
              bin := v.bin.set v.bin_pos ((acc >>> acc_len) &&& 0xFF)
              bin_pos := v.bin_pos + 1
              b64_pos := v.b64_pos + 1 }
      else
        b64_loop char_signed bin_maxlen rest
          { v with acc := acc, acc_len := acc_len, b64_pos := v.b64_pos + 1 }

/-- Padding check `_sodium_base642bin_skip_padding` with `ignore = NULL`, run
on the unread characters: consumes exactly `padding_len` characters `=`.
Returns the status and the new `b64_pos`. -/
def sodium_base642bin_skip_padding : List Nat → Nat → Nat → Int × Nat
  | _, b64_pos, 0 => (0, b64_pos)
  | [], b64_pos, _ + 1 => (-1, b64_pos)
  | c :: rest, b64_pos, padding_len + 1 =>
    if c = 61 then sodium_base642bin_skip_padding rest (b64_pos + 1) padding_len
    else (-1, b64_pos)

/-- The call `sodium_base642bin(bin, bin_maxlen, b64, b64_len, NULL, NULL,
NULL, sodium_base64_VARIANT_ORIGINAL)`: returns the status (0 or -1) and the
contents of the buffer `bin` after the call.  Because `bin_len` is `NULL` the
number of bytes written is not reported to the caller; because `b64_end` is
`NULL` unread input is an error. -/
def sodium_base642bin (char_signed : Bool) (bin : List Nat) (bin_maxlen : Nat)
    (b64 : List Nat) : Int × List Nat :=
  let v := b64_loop char_signed bin_maxlen b64
    { acc := 0, acc_len := 0, b64_pos := 0, bin_pos := 0, ret := 0, bin := bin }
  let r : Int × Nat :=
    if v.acc_len > 4 ∨ (v.acc &&& ((1 <<< v.acc_len) - 1)) ≠ 0 then (-1, v.b64_pos)
    else if v.ret = 0 then
      sodium_base642bin_skip_padding (b64.drop v.b64_pos) v.b64_pos (v.acc_len / 2)
    else (v.ret, v.b64_pos)
  let ret : Int := if r.2 ≠ b64.length then -1 else r.1
  (ret, v.bin)

/-! ## `sodium_init` (libsodium `core.c`) -/

/-- Process-wide state of libsodium: the flag `initialized`. -/
structure SodiumGlobal where
  initialized : Bool
deriving DecidableEq, Repr

/-- The call `sodium_init()`: returns -1 on failure, 1 when the library had
already been initialised, and 0 after initialising it.  Whether the call
fails is decided by the environment (`fails`). -/
def sodium_init (fails : Bool) (g : SodiumGlobal) : Int × SodiumGlobal :=
  if fails then (-1, g)
  else if g.initialized then (1, g)
  else (0, { initialized := true })

/-! ## `verify.cpp` -/

/-- The function `verify_signature` of `verify.cpp`.  `init` is the value
returned by `sodium_init()` in this call and `prim` is
`crypto_sign_verify_detached`.  The two `std::vector<unsigned char>` buffers
are value-initialised, that is filled with zero bytes. -/
def verify_signature (char_signed : Bool) (init : Int) (prim : VerifyPrim)
    (message sig_base64 pubkey_base64 : List Nat) : Bool :=
  if init < 0 then false
  else
    let sig := List.replicate crypto_sign_BYTES 0
    let pub := List.replicate crypto_sign_PUBLICKEYBYTES 0
    let rs := sodium_base642bin char_signed sig sig.length sig_base64
    if rs.1 ≠ 0 then false
    else
      let rp := sodium_base642bin char_signed pub pub.length pubkey_base64
      if rp.1 ≠ 0 then false
      else
        let ok := prim rs.2 message rp.2
        decide (ok = 0)

/-- One call of `verify_signature` in a process whose libsodium state is `g`:
the result of the call and the state it leaves behind. -/
def verify_signature_call (char_signed : Bool) (prim : VerifyPrim) (fails : Bool)
    (g : SodiumGlobal) (message sig_base64 pubkey_base64 : List Nat) : Bool × SodiumGlobal :=
  let r := sodium_init fails g
  (verify_signature char_signed r.1 prim message sig_base64 pubkey_base64, r.2)

/-- Arguments of one earlier call, with the environment's verdict on its
`sodium_init()`. -/
structure Call where
  fails : Bool
  message : List Nat
  sig_base64 : List Nat
  pubkey_base64 : List Nat

/-- State of the process after a sequence of calls of `verify_signature`. -/
def run_calls (char_signed : Bool) (prim : VerifyPrim) :
    SodiumGlobal → List Call → SodiumGlobal
  | g, [] => g
  | g, c :: cs =>
    run_calls char_signed prim
      (verify_signature_call char_signed prim c.fails g c.message c.sig_base64
        c.pubkey_base64).2 cs

/-! ## `c_api.cpp` -/

/-- Construction `std::string(p)` from a non-null C string: the bytes before
the first zero byte. -/
def string_of_c_str (mem : List Nat) : List Nat :=
  mem.takeWhile (fun b => b ≠ 0)

/-- The expression `std::string(p ? p : "")`. -/
def string_of_ptr : Option (List Nat) → List Nat
  | none => []
  | some mem => string_of_c_str mem

/-- The function `verify_signature_c` of `c_api.cpp`. -/
def verify_signature_c (char_signed : Bool) (init : Int) (prim : VerifyPrim)
    (message sig_base64 pubkey_base64 : Option (List Nat)) : Int :=
  let msg := string_of_ptr message
  let sig := string_of_ptr sig_base64
  let pub := string_of_ptr pubkey_base64
  if verify_signature char_signed init prim msg sig pub then 1 else 0

/-! ## `verify_cli.cpp` -/

/-- The function `main` of `verify_cli.cpp`; `argc` is the length of `argv`
and the result is the exit code.  The lines written to `std::cerr` and
`std::cout` are not part of the embedding. -/
def main (char_signed : Bool) (init : Int) (prim : VerifyPrim) (argv : List (List Nat)) :
    Int :=
  let argc := argv.length
  if argc < 4 then 2
  else
    let msg := argv.get? 1
    let sig := argv.get? 2
    let pub := argv.get? 3
    let ok := verify_signature_c char_signed init prim msg sig pub
    if ok ≠ 0 then 0 else 1

/-! ## `pybind.cpp` -/

/-- The member `std::string::c_str()`: a pointer to the bytes of the string
followed by a terminating zero byte. -/
def c_str (s : List Nat) : Option (List Nat) :=
  some (s ++ [0])

/-- The lambda bound to `pyvalidate.verify` in `pybind.cpp`. -/
def pyvalidate_verify (char_signed : Bool) (init : Int) (prim : VerifyPrim)
    (message sig_b64 pub_b64 : List Nat) : Bool :=
  decide (verify_signature_c char_signed init prim (c_str message) (c_str sig_b64)
    (c_str pub_b64) = 1)

/-! ## Standard padded base64 encoding -/

/-- Character of the standard alphabet for a 6-bit value (libsodium
`b64_byte_to_char`). -/
def b64_byte_to_char (x : Nat) : Nat :=
  if x < 26 then x + 65
  else if x < 52 then x + 71
  else if x < 62 then x - 4
  else if x = 62 then 43
  else 47

/-- Standard base64 encoding with `=` padding (RFC 4648, section 4), the
encoding written `base64(b)`. -/
def base64 : List Nat → List Nat
  | [] => []
  | [a] => [b64_byte_to_char (a / 4), b64_byte_to_char (a % 4 * 16), 61, 61]
  | [a, b] =>
    [b64_byte_to_char (a / 4), b64_byte_to_char (a % 4 * 16 + b / 16),
      b64_byte_to_char (b % 16 * 4), 61]
  | a :: b :: c :: rest =>
    b64_byte_to_char (a / 4) :: b64_byte_to_char (a % 4 * 16 + b / 16) ::
      b64_byte_to_char (b % 16 * 4 + c / 64) :: b64_byte_to_char (c % 64) :: base64 rest

/-! ## Vocabulary of the specification -/

/-- A data character of the standard base64 alphabet: `A-Z`, `a-z`, `0-9`,
`+` or `/`. -/
def base64_data_char (c : Nat) : Prop :=
  (65 ≤ c ∧ c ≤ 90) ∨ (97 ≤ c ∧ c ≤ 122) ∨ (48 ≤ c ∧ c ≤ 57) ∨ c = 43 ∨ c = 47

instance (c : Nat) : Decidable (base64_data_char c) := by
  unfold base64_data_char; infer_instance

/-- A character of the standard padded base64 alphabet: a data character or
the padding character `=`. -/
def std_base64_char (c : Nat) : Prop :=
  base64_data_char c ∨ c = 61

instance (c : Nat) : Decidable (std_base64_char c) := by
  unfold std_base64_char; infer_instance

/-- A list of bytes: every element is below 256. -/
def is_bytes (b : List Nat) : Prop :=
  ∀ x ∈ b, x < 256

instance (b : List Nat) : Decidable (is_bytes b) := by
  unfold is_bytes; infer_instance

/-! ## Test vectors (RFC 8032, section 7.1, tests 1 and 2) -/

/-- Message of test 1: the empty message. -/
def test1_message : List Nat := []

/-- Public key of test 1. -/
def test1_public_key : List Nat :=
  [0xd7, 0x5a, 0x98, 0x01, 0x82, 0xb1, 0x0a, 0xb7, 0xd5, 0x4b, 0xfe, 0xd3, 0xc9, 0x64, 0x07, 0x3a,
   0x0e, 0xe1, 0x72, 0xf3, 0xda, 0xa6, 0x23, 0x25, 0xaf, 0x02, 0x1a, 0x68, 0xf7, 0x07, 0x51, 0x1a]

/-- Signature of test 1. -/
def test1_signature : List Nat :=
  [0xe5, 0x56, 0x43, 0x00, 0xc3, 0x60, 0xac, 0x72, 0x90, 0x86, 0xe2, 0xcc, 0x80, 0x6e, 0x82, 0x8a,
   0x84, 0x87, 0x7f, 0x1e, 0xb8, 0xe5, 0xd9, 0x74, 0xd8, 0x73, 0xe0, 0x65, 0x22, 0x49, 0x01, 0x55,
   0x5f, 0xb8, 0x82, 0x15, 0x90, 0xa3, 0x3b, 0xac, 0xc6, 0x1e, 0x39, 0x70, 0x1c, 0xf9, 0xb4, 0x6b,
   0xd2, 0x5b, 0xf5, 0xf0, 0x59, 0x5b, 0xbe, 0x24, 0x65, 0x51, 0x41, 0x43, 0x8e, 0x7a, 0x10, 0x0b]

/-- The text `11qYAYKxCrfVS/7TyWQHOg7hcvPapiMlrwIaaPcHURo=`, the encoding of the
public key of test 1, with its character `/` replaced by the byte `0xAB`. -/
def test1_public_key_text_0xAB : List Nat :=
  [49, 49, 113, 89, 65, 89, 75, 120, 67, 114, 102, 86, 83, 0xAB, 55, 84, 121, 87, 81, 72, 79, 103,
   55, 104, 99, 118, 80, 97, 112, 105, 77, 108, 114, 119, 73, 97, 97, 80, 99, 72, 85, 82, 111, 61]

/-- A verification primitive that accepts test 1 and nothing else. -/
def test1_prim : VerifyPrim := fun sig m pk =>
  if sig = test1_signature ∧ m = test1_message ∧ pk = test1_public_key then 0 else -1

/-- Message of test 2: the single byte `0x72`. -/
def test2_message : List Nat := [0x72]

/-- Public key of test 2. -/
def test2_public_key : List Nat :=
  [0x3d, 0x40, 0x17, 0xc3, 0xe8, 0x43, 0x89, 0x5a, 0x92, 0xb7, 0x0a, 0xa7, 0x4d, 0x1b, 0x7e, 0xbc,
   0x9c, 0x98, 0x2c, 0xcf, 0x2e, 0xc4, 0x96, 0x8c, 0xc0, 0xcd, 0x55, 0xf1, 0x2a, 0xf4, 0x66, 0x0c]

/-- Signature of test 2; its last byte is zero. -/
def test2_signature : List Nat :=
  [0x92, 0xa0, 0x09, 0xa9, 0xf0, 0xd4, 0xca, 0xb8, 0x72, 0x0e, 0x82, 0x0b, 0x5f, 0x64, 0x25, 0x40,
   0xa2, 0xb2, 0x7b, 0x54, 0x16, 0x50, 0x3f, 0x8f, 0xb3, 0x76, 0x22, 0x23, 0xeb, 0xdb, 0x69, 0xda,
   0x08, 0x5a, 0xc1, 0xe4, 0x3e, 0x15, 0x99, 0x6e, 0x45, 0x8f, 0x36, 0x13, 0xd0, 0xf1, 0x1d, 0x8c,
   0x38, 0x7b, 0x2e, 0xae, 0xb4, 0x30, 0x2a, 0xee, 0xb0, 0x0d, 0x29, 0x16, 0x12, 0xbb, 0x0c, 0x00]

/-- The text of 84 characters that encodes the first 63 bytes of the signature
of test 2. -/
def test2_signature_text_63 : List Nat :=
  ("kqAJqfDUyrhyDoILX2QlQKKye1QWUD+Ps3YiI+vbadoIWsHkPhWZbkWPNhPQ8R2MOHsurrQwKu6wDSkWErsM".toList.map
    Char.toNat)

/-- The text that encodes the public key of test 2. -/
def test2_public_key_text : List Nat :=
  ("PUAXw+hDiVqStwqnTRt+vJyYLM8uxJaMwM1V8Sr0Zgw=".toList.map Char.toNat)

/-- A verification primitive that accepts test 2 and nothing else. -/
def test2_prim : VerifyPrim := fun sig m pk =>
  if sig = test2_signature ∧ m = test2_message ∧ pk = test2_public_key then 0 else -1

/-! # Properties -/

/-! ## The decoding loop -/

theorem and_255 (x : Nat) : x &&& 0xFF = x % 256 :=
  Nat.and_pow_two_sub_one_eq_mod x 8

theorem mask_eq_mod (x k : Nat) : x &&& ((1 <<< k) - 1) = x % 2 ^ k := by
  rw [Nat.one_shiftLeft]
  exact Nat.and_pow_two_sub_one_eq_mod x k

theorem char_to_uint_ascii (sc : Bool) (c : Nat) (h : c < 128) : char_to_uint sc c = c := by
  unfold char_to_uint
  rw [if_neg]
  omega

theorem b64_byte_to_char_ascii (d : Nat) : b64_byte_to_char d < 128 := by
  unfold b64_byte_to_char
  split_ifs <;> omega

theorem b64_char_to_byte_table :
    ∀ d, d < 64 → b64_char_to_byte (b64_byte_to_char d) = d := by
  decide

theorem b64_char_to_byte_byte_to_char (sc : Bool) (d : Nat) (h : d < 64) :
    b64_char_to_byte (char_to_uint sc (b64_byte_to_char d)) = d := by
  rw [char_to_uint_ascii sc _ (b64_byte_to_char_ascii d)]
  exact b64_char_to_byte_table d h

theorem b64_char_to_byte_pad (sc : Bool) : b64_char_to_byte (char_to_uint sc 61) = 0xFF := by
  rw [char_to_uint_ascii sc 61 (by omega)]
  decide

theorem b64_loop_nil (sc : Bool) (n : Nat) (v : B64Vars) : b64_loop sc n [] v = v := rfl

theorem b64_loop_break (sc : Bool) (n c : Nat) (rest : List Nat) (v : B64Vars)
    (h : b64_char_to_byte (char_to_uint sc c) = 0xFF) : b64_loop sc n (c :: rest) v = v := by
  simp [b64_loop, h]

theorem b64_loop_keep (sc : Bool) (n c : Nat) (rest : List Nat) (v : B64Vars)
    (h : b64_char_to_byte (char_to_uint sc c) ≠ 0xFF) (hl : v.acc_len + 6 < 8) :
    b64_loop sc n (c :: rest) v =
      b64_loop sc n rest
        ⟨(v.acc * 64 + b64_char_to_byte (char_to_uint sc c)) % 4294967296, v.acc_len + 6,
          v.b64_pos + 1, v.bin_pos, v.ret, v.bin⟩ := by
  have h2 : ¬ (8 ≤ v.acc_len + 6) := by omega
  simp [b64_loop, h, h2, Nat.shiftLeft_eq]

theorem b64_loop_emit (sc : Bool) (n c : Nat) (rest : List Nat) (v : B64Vars)
    (h : b64_char_to_byte (char_to_uint sc c) ≠ 0xFF) (hl : 8 ≤ v.acc_len + 6)
    (hb : v.bin_pos < n) :
    b64_loop sc n (c :: rest) v =
      b64_loop sc n rest
        ⟨(v.acc * 64 + b64_char_to_byte (char_to_uint sc c)) % 4294967296,
          v.acc_len + 6 - 8, v.b64_pos + 1, v.bin_pos + 1, v.ret,
          v.bin.set v.bin_pos
            ((v.acc * 64 + b64_char_to_byte (char_to_uint sc c)) % 4294967296 /
              2 ^ (v.acc_len + 6 - 8) % 256)⟩ := by
  have h2 : ¬ (n ≤ v.bin_pos) := by omega
  simp [b64_loop, h, hl, h2, Nat.shiftLeft_eq, Nat.shiftRight_eq_div_pow, and_255]

theorem b64_loop_range (sc : Bool) (n c : Nat) (rest : List Nat) (v : B64Vars)
    (h : b64_char_to_byte (char_to_uint sc c) ≠ 0xFF) (hl : 8 ≤ v.acc_len + 6)
    (hb : n ≤ v.bin_pos) :
    b64_loop sc n (c :: rest) v =
      ⟨(v.acc * 64 + b64_char_to_byte (char_to_uint sc c)) % 4294967296, v.acc_len + 6 - 8,
        v.b64_pos, v.bin_pos, -1, v.bin⟩ := by
  simp [b64_loop, h, hl, hb, Nat.shiftLeft_eq]

/-- The loop reads a run of recognised characters; when it ends without error
the number of bits left in the accumulator is determined by the length of the
run. -/
theorem b64_loop_scan (sc : Bool) (n : Nat) : ∀ (cs : List Nat) (v : B64Vars),
    v.acc_len < 8 → v.ret = 0 →
    ∃ pre post, cs = pre ++ post ∧ (∀ c ∈ pre, b64_char_to_byte (char_to_uint sc c) ≠ 0xFF) ∧
      (b64_loop sc n cs v).b64_pos = v.b64_pos + pre.length ∧
      ((b64_loop sc n cs v).ret = 0 →
        (b64_loop sc n cs v).acc_len = (v.acc_len + 6 * pre.length) % 8) := by
  intro cs
  induction cs with
  | nil =>
    intro v hl _
    refine ⟨[], [], rfl, by simp, by simp [b64_loop], ?_⟩
    intro _
    simp only [b64_loop_nil, List.length_nil]
    omega
  | cons c rest ih =>
    intro v hl hr
    by_cases hd : b64_char_to_byte (char_to_uint sc c) = 0xFF
    · refine ⟨[], c :: rest, rfl, by simp, by simp [b64_loop_break, hd], ?_⟩
      intro _
      rw [b64_loop_break sc n c rest v hd]
      simp only [List.length_nil]
      omega
    · by_cases h8 : v.acc_len + 6 < 8
      · obtain ⟨pre, post, hcs, hpre, hpos, hacc⟩ :=
          ih ⟨(v.acc * 64 + b64_char_to_byte (char_to_uint sc c)) % 4294967296, v.acc_len + 6,
            v.b64_pos + 1, v.bin_pos, v.ret, v.bin⟩ h8 hr
        refine ⟨c :: pre, post, by simp [hcs], ?_, ?_, ?_⟩
        · intro x hx
          rcases List.mem_cons.mp hx with rfl | hx
          · exact hd
          · exact hpre x hx
        · rw [b64_loop_keep sc n c rest v hd h8, hpos]
          simp only [List.length_cons]
          omega
        · rw [b64_loop_keep sc n c rest v hd h8]
          intro h0
          rw [hacc h0]
          simp only [List.length_cons]
          omega
      · have h8' : 8 ≤ v.acc_len + 6 := by omega
        by_cases hb : v.bin_pos < n
        · obtain ⟨pre, post, hcs, hpre, hpos, hacc⟩ :=
            ih ⟨(v.acc * 64 + b64_char_to_byte (char_to_uint sc c)) % 4294967296, v.acc_len + 6 - 8,
              v.b64_pos + 1, v.bin_pos + 1, v.ret,
              v.bin.set v.bin_pos
                ((v.acc * 64 + b64_char_to_byte (char_to_uint sc c)) % 4294967296 /
                  2 ^ (v.acc_len + 6 - 8) % 256)⟩ (by simp only; omega) hr
          refine ⟨c :: pre, post, by simp [hcs], ?_, ?_, ?_⟩
          · intro x hx
            rcases List.mem_cons.mp hx with rfl | hx
            · exact hd
            · exact hpre x hx
          · rw [b64_loop_emit sc n c rest v hd h8' hb, hpos]
            simp only [List.length_cons]
            omega
          · rw [b64_loop_emit sc n c rest v hd h8' hb]
            intro h0
            rw [hacc h0]
            simp only [List.length_cons]
            omega
        · have hb' : n ≤ v.bin_pos := by omega
          refine ⟨[], c :: rest, rfl, by simp, ?_, ?_⟩
          · rw [b64_loop_range sc n c rest v hd h8' hb']
            simp
          · rw [b64_loop_range sc n c rest v hd h8' hb']
            intro h0
            simp at h0

theorem skip_padding_ok : ∀ (cs : List Nat) (pos k p : Nat),
    sodium_base642bin_skip_padding cs pos k = (0, p) →
    ∃ t, cs = List.replicate k 61 ++ t ∧ p = pos + k := by
  intro cs pos k
  induction k generalizing cs pos with
  | zero =>
    intro p h
    cases cs <;> simp [sodium_base642bin_skip_padding] at h <;> simp [h]
  | succ k ih =>
    intro p h
    cases cs with
    | nil => simp [sodium_base642bin_skip_padding] at h
    | cons c rest =>
      by_cases hc : c = 61
      · subst hc
        simp only [sodium_base642bin_skip_padding, if_true] at h
        obtain ⟨t, ht, hp⟩ := ih rest (pos + 1) p h
        refine ⟨t, ?_, by omega⟩
        simp [List.replicate_succ, ht]
      · simp [sodium_base642bin_skip_padding, hc] at h

theorem sodium_base642bin_ok_shape (sc : Bool) (bin : List Nat) (n : Nat) (b64 : List Nat)
    (h : (sodium_base642bin sc bin n b64).1 = 0) :
    ∃ pre k, b64 = pre ++ List.replicate k 61 ∧
      (∀ c ∈ pre, b64_char_to_byte (char_to_uint sc c) ≠ 0xFF) ∧
      6 * pre.length % 8 ≤ 4 ∧ k = 6 * pre.length % 8 / 2 := by
  obtain ⟨pre, post, hcs, hpre, hpos, hacc⟩ :=
    b64_loop_scan sc n b64 ⟨0, 0, 0, 0, 0, bin⟩ (by simp) rfl
  simp only [Nat.zero_add] at hpos hacc
  unfold sodium_base642bin at h
  simp only at h
  generalize b64_loop sc n b64 ⟨0, 0, 0, 0, 0, bin⟩ = v at h hpos hacc
  by_cases h1 : v.acc_len > 4 ∨ (v.acc &&& ((1 <<< v.acc_len) - 1)) ≠ 0
  · rw [if_pos h1] at h
    split_ifs at h
    simp at h
  · rw [if_neg h1] at h
    by_cases h4 : v.ret = 0
    · rw [if_pos h4] at h
      have hacc' := hacc h4
      have hdrop : List.drop v.b64_pos b64 = post := by
        rw [hpos, hcs]; simp
      rw [hdrop] at h
      by_cases h2 : (sodium_base642bin_skip_padding post v.b64_pos (v.acc_len / 2)).2 ≠
          b64.length
      · rw [if_pos h2] at h
        simp at h
      · rw [if_neg h2] at h
        have hp : sodium_base642bin_skip_padding post v.b64_pos (v.acc_len / 2) =
            (0, b64.length) := by
          apply Prod.ext
          · exact h
          · simpa using h2
        obtain ⟨t, ht, hlen⟩ := skip_padding_ok _ _ _ _ hp
        have hlen2 : b64.length = pre.length + (v.acc_len / 2 + t.length) := by
          rw [hcs, ht]; simp
        have ht0 : t = [] := by
          apply List.eq_nil_of_length_eq_zero
          omega
        have h3 : v.acc_len ≤ 4 := by
          by_contra hc
          exact h1 (Or.inl (by omega))
        refine ⟨pre, v.acc_len / 2, ?_, hpre, ?_, ?_⟩
        · rw [hcs, ht, ht0]; simp
        · rw [← hacc']; exact h3
        · rw [hacc']
    · rw [if_neg h4] at h
      split_ifs at h
      exact absurd h h4

theorem set_append_cons (out : List Nat) (x v : Nat) (tl : List Nat) :
    (out ++ x :: tl).set out.length v = out ++ v :: tl := by
  induction out with
  | nil => rfl
  | cons o out ih => simp [ih]

theorem b64_data_char (sc : Bool) (d : Nat) (h : d < 64) :
    b64_char_to_byte (char_to_uint sc (b64_byte_to_char d)) ≠ 0xFF := by
  rw [b64_char_to_byte_byte_to_char sc d h]; omega

/-- Two characters: one byte is written, four bits stay in the accumulator. -/
theorem b64_loop_pair (sc : Bool) (n d0 d1 acc p bp : Nat) (bin out tl rest : List Nat) (x : Nat)
    (h0 : d0 < 64) (h1 : d1 < 64) (hbp : bp = out.length) (hbin : bin = out ++ x :: tl)
    (hn : bp < n) :
    ∃ A, A % 16 = d1 % 16 ∧
      b64_loop sc n (b64_byte_to_char d0 :: b64_byte_to_char d1 :: rest) ⟨acc, 0, p, bp, 0, bin⟩ =
      b64_loop sc n rest ⟨A, 4, p + 2, bp + 1, 0, out ++ (d0 * 4 + d1 / 16) :: tl⟩ := by
  subst hbp hbin
  refine ⟨((acc * 64 + d0) % 4294967296 * 64 + d1) % 4294967296, by omega, ?_⟩
  rw [b64_loop_keep sc n _ _ _ (b64_data_char sc d0 h0) (by simp)]
  rw [b64_loop_emit sc n _ _ _ (b64_data_char sc d1 h1) (by simp) (by simpa using hn)]
  simp only [b64_char_to_byte_byte_to_char sc d0 h0, b64_char_to_byte_byte_to_char sc d1 h1,
    set_append_cons]
  congr 2
  · norm_num
    omega

/-- A third character: a second byte is written, two bits stay. -/
theorem b64_loop_third (sc : Bool) (n d2 acc p bp : Nat) (bin out tl rest : List Nat) (x : Nat)
    (h2 : d2 < 64) (hbp : bp = out.length) (hbin : bin = out ++ x :: tl) (hn : bp < n) :
    ∃ A, A % 4 = d2 % 4 ∧
      b64_loop sc n (b64_byte_to_char d2 :: rest) ⟨acc, 4, p, bp, 0, bin⟩ =
      b64_loop sc n rest ⟨A, 2, p + 1, bp + 1, 0, out ++ (acc % 16 * 16 + d2 / 4) :: tl⟩ := by
  subst hbp hbin
  refine ⟨(acc * 64 + d2) % 4294967296, by omega, ?_⟩
  rw [b64_loop_emit sc n _ _ _ (b64_data_char sc d2 h2) (by simp) (by simpa using hn)]
  simp only [b64_char_to_byte_byte_to_char sc d2 h2, set_append_cons]
  congr 2
  · norm_num
    omega

/-- A fourth character: a third byte is written, the accumulator is used up. -/
theorem b64_loop_fourth (sc : Bool) (n d3 acc p bp : Nat) (bin out tl rest : List Nat) (x : Nat)
    (h3 : d3 < 64) (hbp : bp = out.length) (hbin : bin = out ++ x :: tl) (hn : bp < n) :
    ∃ A,
      b64_loop sc n (b64_byte_to_char d3 :: rest) ⟨acc, 2, p, bp, 0, bin⟩ =
      b64_loop sc n rest ⟨A, 0, p + 1, bp + 1, 0, out ++ (acc % 4 * 64 + d3) :: tl⟩ := by
  subst hbp hbin
  refine ⟨(acc * 64 + d3) % 4294967296, ?_⟩
  rw [b64_loop_emit sc n _ _ _ (b64_data_char sc d3 h3) (by simp) (by simpa using hn)]
  simp only [b64_char_to_byte_byte_to_char sc d3 h3, set_append_cons]
  congr 2
  · norm_num
    omega

/-- Decoding the encoding of three bytes writes these three bytes. -/
theorem b64_loop_quad (sc : Bool) (n a b c acc p : Nat) (out tl rest : List Nat) (x y z : Nat)
    (ha : a < 256) (hb : b < 256) (hc : c < 256) (hn : out.length + 3 ≤ n) :
    ∃ A,
      b64_loop sc n (b64_byte_to_char (a / 4) :: b64_byte_to_char (a % 4 * 16 + b / 16) ::
          b64_byte_to_char (b % 16 * 4 + c / 64) :: b64_byte_to_char (c % 64) :: rest)
        ⟨acc, 0, p, out.length, 0, out ++ x :: y :: z :: tl⟩ =
      b64_loop sc n rest
        ⟨A, 0, p + 4, out.length + 3, 0, out ++ a :: b :: c :: tl⟩ := by
  obtain ⟨A1, hA1, e1⟩ := b64_loop_pair sc n (a / 4) (a % 4 * 16 + b / 16) acc p out.length _ out
    (y :: z :: tl) (b64_byte_to_char (b % 16 * 4 + c / 64) :: b64_byte_to_char (c % 64) :: rest)
    x (by omega) (by omega) rfl rfl (by omega)
  have b1 : a / 4 * 4 + (a % 4 * 16 + b / 16) / 16 = a := by omega
  rw [b1] at e1
  obtain ⟨A2, hA2, e2⟩ := b64_loop_third sc n (b % 16 * 4 + c / 64) A1 (p + 2) (out.length + 1)
    (out ++ a :: y :: z :: tl) (out ++ [a]) (z :: tl)
    (b64_byte_to_char (c % 64) :: rest) y (by omega) (by simp) (by simp) (by omega)
  have b2 : A1 % 16 * 16 + (b % 16 * 4 + c / 64) / 4 = b := by omega
  rw [b2] at e2
  obtain ⟨A3, e3⟩ := b64_loop_fourth sc n (c % 64) A2 (p + 2 + 1) (out.length + 1 + 1)
    (out ++ [a] ++ b :: z :: tl) (out ++ [a] ++ [b]) tl rest z (by omega) (by simp) (by simp)
    (by omega)
  have b3 : A2 % 4 * 64 + c % 64 = c := by omega
  rw [b3] at e3
  refine ⟨A3, ?_⟩
  rw [e1, e2, e3]
  simp

/-- Decoding `base64 b` into a buffer with room for `b`: the loop ends without
error, `b` has been written behind `out`, the rest of the buffer is untouched,
and the padding check consumes the rest of the text. -/
theorem b64_loop_base64 (sc : Bool) (n : Nat) : ∀ (b out tl : List Nat) (acc p : Nat),
    (∀ x ∈ b, x < 256) → b.length ≤ tl.length → out.length + b.length ≤ n →
    ∃ v, b64_loop sc n (base64 b) ⟨acc, 0, p, out.length, 0, out ++ tl⟩ = v ∧
      v.ret = 0 ∧ v.bin = out ++ (b ++ tl.drop b.length) ∧ v.acc_len ≤ 4 ∧
      v.acc % 2 ^ v.acc_len = 0 ∧ p ≤ v.b64_pos ∧
      sodium_base642bin_skip_padding ((base64 b).drop (v.b64_pos - p)) v.b64_pos
        (v.acc_len / 2) = (0, p + (base64 b).length)
  | [], out, tl, acc, p, _, _, _ => by
    refine ⟨_, rfl, ?_⟩
    simp [base64, b64_loop, sodium_base642bin_skip_padding, Nat.mod_one]
  | [a], out, tl, acc, p, hb, htl, hn => by
    have ha : a < 256 := hb a (by simp)
    obtain ⟨x, tl', rfl⟩ : ∃ x tl', tl = x :: tl' := by
      cases tl with
      | nil => simp at htl
      | cons x tl' => exact ⟨x, tl', rfl⟩
    obtain ⟨A, hA, e⟩ := b64_loop_pair sc n (a / 4) (a % 4 * 16) acc p out.length _ out tl'
      [61, 61] x (by omega) (by omega) rfl rfl (by simp at hn; omega)
    have b1 : a / 4 * 4 + a % 4 * 16 / 16 = a := by omega
    rw [b1, b64_loop_break sc n 61 [61] _ (b64_char_to_byte_pad sc)] at e
    refine ⟨_, e, ?_⟩
    simp [base64, sodium_base642bin_skip_padding]
    omega
  | [a, b], out, tl, acc, p, hb, htl, hn => by
    have ha : a < 256 := hb a (by simp)
    have hb' : b < 256 := hb b (by simp)
    obtain ⟨x, y, tl', rfl⟩ : ∃ x y tl', tl = x :: y :: tl' := by
      match tl, htl with
      | x :: y :: tl', _ => exact ⟨x, y, tl', rfl⟩
    simp only [List.length_cons, List.length_nil] at hn
    obtain ⟨A1, hA1, e1⟩ := b64_loop_pair sc n (a / 4) (a % 4 * 16 + b / 16) acc p out.length _ out
      (y :: tl') [b64_byte_to_char (b % 16 * 4), 61] x (by omega) (by omega) rfl rfl (by omega)
    have b1 : a / 4 * 4 + (a % 4 * 16 + b / 16) / 16 = a := by omega
    rw [b1] at e1
    obtain ⟨A2, hA2, e2⟩ := b64_loop_third sc n (b % 16 * 4) A1 (p + 2) (out.length + 1)
      (out ++ a :: y :: tl') (out ++ [a]) tl' [61] y (by omega) (by simp) (by simp) (by omega)
    have b2 : A1 % 16 * 16 + b % 16 * 4 / 4 = b := by omega
    rw [b2, b64_loop_break sc n 61 [] _ (b64_char_to_byte_pad sc)] at e2
    refine ⟨_, e1.trans e2, ?_⟩
    have hp : p + 2 + 1 - p = 3 := by omega
    simp [base64, sodium_base642bin_skip_padding, hp]
    omega
  | a :: b :: c :: rest, out, tl, acc, p, hb, htl, hn => by
    have ha : a < 256 := hb a (by simp)
    have hb' : b < 256 := hb b (by simp)
    have hc : c < 256 := hb c (by simp)
    obtain ⟨x, y, z, tl', rfl⟩ : ∃ x y z tl', tl = x :: y :: z :: tl' := by
      match tl, htl with
      | x :: y :: z :: tl', _ => exact ⟨x, y, z, tl', rfl⟩
    simp only [List.length_cons] at hn htl
    obtain ⟨A, e⟩ := b64_loop_quad sc n a b c acc p out tl' (base64 rest) x y z ha hb' hc (by omega)
    obtain ⟨v, hv, hret, hbin, hlen, hacc, hpos, hskip⟩ :=
      b64_loop_base64 sc n rest (out ++ [a, b, c]) tl' A (p + 4)
        (fun t ht => hb t (by simp [ht])) (by omega) (by simp; omega)
    refine ⟨v, ?_, hret, ?_, hlen, hacc, by omega, ?_⟩
    · rw [← hv]
      simp only [base64]
      rw [e]
      simp
    · rw [hbin]; simp
    · have hd : v.b64_pos - p = 4 + (v.b64_pos - (p + 4)) := by omega
      simp only [base64, hd, List.length_cons]
      rw [show ∀ (l : List Nat) (c0 c1 c2 c3 : Nat) (k : Nat),
        List.drop (4 + k) (c0 :: c1 :: c2 :: c3 :: l) = List.drop k l from by
          intro l c0 c1 c2 c3 k
          rw [Nat.add_comm]
          rfl]
      rw [hskip]
      simp
      omega

/-- Decoding `base64 b` into a zeroed buffer of `n ≥ b.length` bytes succeeds and
leaves `b` followed by zero bytes in the buffer. -/
theorem sodium_base642bin_base64 (sc : Bool) (n : Nat) (b : List Nat) (hb : ∀ x ∈ b, x < 256)
    (hlen : b.length ≤ n) :
    sodium_base642bin sc (List.replicate n 0) n (base64 b) =
      (0, b ++ List.replicate (n - b.length) 0) := by
  obtain ⟨v, hv, hret, hbin, hal, hacc, _, hskip⟩ :=
    b64_loop_base64 sc n b [] (List.replicate n 0) 0 0 hb (by simpa using hlen) (by simpa using hlen)
  simp only [List.nil_append, List.length_nil, Nat.sub_zero, Nat.zero_add] at hv hbin hskip
  unfold sodium_base642bin
  simp only [hv]
  have h1 : ¬ (v.acc_len > 4 ∨ (v.acc &&& ((1 <<< v.acc_len) - 1)) ≠ 0) := by
    rw [mask_eq_mod]
    intro h
    rcases h with h | h
    · omega
    · exact h hacc
  rw [if_neg h1, if_pos hret, hskip, hbin]
  simp

theorem b64_loop_range_ret (sc : Bool) (n d : Nat) (rest : List Nat) (v : B64Vars) (hd : d < 64)
    (hl : 2 ≤ v.acc_len) (hb : n ≤ v.bin_pos) :
    (b64_loop sc n (b64_byte_to_char d :: rest) v).ret = -1 := by
  rw [b64_loop_range sc n _ rest v (b64_data_char sc d hd) (by omega) hb]

/-- Decoding `base64 b` when fewer than `b.length` bytes of room are left ends
with `ret = -1`. -/
theorem b64_loop_base64_overflow (sc : Bool) (n : Nat) : ∀ (b : List Nat) (v : B64Vars),
    (∀ x ∈ b, x < 256) → v.acc_len = 0 → v.bin_pos ≤ n → n < v.bin_pos + b.length →
    (b64_loop sc n (base64 b) v).ret = -1
  | [], v, _, _, hle, hn => by
    simp at hn
    omega
  | [a], v, hb, hl, _, hn => by
    have ha : a < 256 := hb a (by simp)
    simp only [base64]
    rw [b64_loop_keep sc n _ _ v (b64_data_char sc _ (by omega)) (by omega)]
    exact b64_loop_range_ret sc n _ _ _ (by omega) (by simp) (by simp at hn ⊢; omega)
  | [a, b], v, hb, hl, _, hn => by
    have ha : a < 256 := hb a (by simp)
    have hb' : b < 256 := hb b (by simp)
    simp only [List.length_cons, List.length_nil] at hn
    simp only [base64]
    rw [b64_loop_keep sc n _ _ v (b64_data_char sc _ (by omega)) (by omega)]
    by_cases h1 : v.bin_pos < n
    · rw [b64_loop_emit sc n _ _ _ (b64_data_char sc _ (by omega)) (by simp) (by simpa using h1)]
      exact b64_loop_range_ret sc n _ _ _ (by omega) (by simp) (by simp; omega)
    · exact b64_loop_range_ret sc n _ _ _ (by omega) (by simp) (by simp; omega)
  | a :: b :: c :: rest, v, hb, hl, hle, hn => by
    have ha : a < 256 := hb a (by simp)
    have hb' : b < 256 := hb b (by simp)
    have hc : c < 256 := hb c (by simp)
    simp only [List.length_cons] at hn
    simp only [base64]
    rw [b64_loop_keep sc n _ _ v (b64_data_char sc _ (by omega)) (by omega)]
    by_cases h1 : v.bin_pos < n
    · rw [b64_loop_emit sc n _ _ _ (b64_data_char sc _ (by omega)) (by simp) (by simpa using h1)]
      by_cases h2 : v.bin_pos + 1 < n
      · rw [b64_loop_emit sc n _ _ _ (b64_data_char sc _ (by omega)) (by simp)
          (by simpa using h2)]
        by_cases h3 : v.bin_pos + 1 + 1 < n
        · rw [b64_loop_emit sc n _ _ _ (b64_data_char sc _ (by omega)) (by simp)
            (by simpa using h3)]
          exact b64_loop_base64_overflow sc n rest _ (fun t ht => hb t (by simp [ht]))
            (by simp; omega) (by simp; omega) (by simp; omega)
        · exact b64_loop_range_ret sc n _ _ _ (by omega) (by simp) (by simp; omega)
      · exact b64_loop_range_ret sc n _ _ _ (by omega) (by simp) (by simp; omega)
    · exact b64_loop_range_ret sc n _ _ _ (by omega) (by simp) (by simp; omega)

/-- Decoding `base64 b` into a buffer of fewer than `b.length` bytes fails. -/
theorem sodium_base642bin_base64_too_long (sc : Bool) (bin : List Nat) (n : Nat) (b : List Nat)
    (hb : ∀ x ∈ b, x < 256) (hlen : n < b.length) :
    (sodium_base642bin sc bin n (base64 b)).1 = -1 := by
  have hret := b64_loop_base64_overflow sc n b ⟨0, 0, 0, 0, 0, bin⟩ hb rfl (by simp)
    (by simpa using hlen)
  unfold sodium_base642bin
  simp only
  generalize b64_loop sc n (base64 b) ⟨0, 0, 0, 0, 0, bin⟩ = v at hret
  have h0 : ¬ v.ret = 0 := by rw [hret]; decide
  split_ifs <;> first | rfl | exact hret

/-! ### Alphabet -/

set_option maxRecDepth 4000 in
theorem base64_data_char_table :
    ∀ c, c < 256 → (base64_data_char c ↔ b64_char_to_byte c ≠ 0xFF) := by
  decide

set_option maxRecDepth 4000 in
theorem b64_char_to_byte_high_signed :
    ∀ c, c < 128 → b64_char_to_byte (c + 128 + (2 ^ 32 - 256)) = 63 := by
  decide

theorem base64_data_char_lt (c : Nat) (h : base64_data_char c) : c < 128 := by
  unfold base64_data_char at h
  omega

/-- On the bytes below 128, and on every byte where `char` is unsigned, the
decoder recognises exactly the data characters of the alphabet. -/
theorem base64_data_char_iff (sc : Bool) (c : Nat) (h : c < 128 ∨ (sc = false ∧ c < 256)) :
    base64_data_char c ↔ b64_char_to_byte (char_to_uint sc c) ≠ 0xFF := by
  have hu : char_to_uint sc c = c := by
    rcases h with h | ⟨h, _⟩
    · exact char_to_uint_ascii sc c h
    · subst h
      simp [char_to_uint]
  rw [hu]
  exact base64_data_char_table c (by omega)

theorem base64_data_char_recognised (sc : Bool) (c : Nat) (h : base64_data_char c) :
    b64_char_to_byte (char_to_uint sc c) ≠ 0xFF :=
  (base64_data_char_iff sc c (Or.inl (base64_data_char_lt c h))).mp h

theorem not_std_base64_char (sc : Bool) (c : Nat) (h : ¬ std_base64_char c)
    (hc : c < 128 ∨ (sc = false ∧ c < 256)) :
    b64_char_to_byte (char_to_uint sc c) = 0xFF ∧ c ≠ 61 := by
  unfold std_base64_char at h
  constructor
  · by_contra hx
    exact h (Or.inl ((base64_data_char_iff sc c hc).mpr hx))
  · intro hx
    exact h (Or.inr hx)

/-! ### Texts the decoder rejects -/

/-- A text with a character outside the padded alphabet is rejected. -/
theorem sodium_base642bin_bad_char (sc : Bool) (bin : List Nat) (n : Nat) (b64 : List Nat)
    (c : Nat) (hc : c ∈ b64) (hbad : ¬ std_base64_char c)
    (hbyte : c < 128 ∨ (sc = false ∧ c < 256)) : (sodium_base642bin sc bin n b64).1 ≠ 0 := by
  intro h
  obtain ⟨pre, k, hshape, hpre, _, _⟩ := sodium_base642bin_ok_shape sc bin n b64 h
  obtain ⟨h255, h61⟩ := not_std_base64_char sc c hbad hbyte
  rw [hshape] at hc
  rcases List.mem_append.mp hc with hc | hc
  · exact hpre c hc h255
  · exact h61 (List.eq_of_mem_replicate hc)

/-- Data characters followed by `=` characters split in one way only. -/
theorem data_padding_unique (sc : Bool) : ∀ (pre data : List Nat) (k j : Nat),
    (∀ c ∈ pre, b64_char_to_byte (char_to_uint sc c) ≠ 0xFF) →
    (∀ c ∈ data, b64_char_to_byte (char_to_uint sc c) ≠ 0xFF) →
    pre ++ List.replicate k 61 = data ++ List.replicate j 61 → pre.length = data.length ∧ k = j
  | [], [], k, j, _, _, h => by
    have := congrArg List.length h
    simpa using this
  | [], d :: data, k, j, _, hd, h => by
    exfalso
    cases k with
    | zero => simp at h
    | succ k =>
      simp only [List.nil_append, List.replicate_succ, List.cons_append, List.cons.injEq] at h
      exact hd d (by simp) (by rw [← h.1]; exact b64_char_to_byte_pad sc)
  | p :: pre, [], k, j, hp, _, h => by
    exfalso
    cases j with
    | zero => simp at h
    | succ j =>
      simp only [List.nil_append, List.replicate_succ, List.cons_append, List.cons.injEq] at h
      exact hp p (by simp) (by rw [h.1]; exact b64_char_to_byte_pad sc)
  | p :: pre, d :: data, k, j, hp, hd, h => by
    simp only [List.cons_append, List.cons.injEq] at h
    obtain ⟨hl, hk⟩ := data_padding_unique sc pre data k j
      (fun c hc => hp c (by simp [hc])) (fun c hc => hd c (by simp [hc])) h.2
    exact ⟨by simp [hl], hk⟩

/-- Data characters whose number is not a multiple of four, followed by a
wrong number of `=` characters, are rejected; when a single character is left
over, any number of `=` is wrong. -/
theorem sodium_base642bin_bad_padding (sc : Bool) (bin : List Nat) (n : Nat) (data : List Nat)
    (j : Nat)
    (hdata : ∀ c ∈ data, base64_data_char c) (hmod : data.length % 4 ≠ 0)
    (hj : data.length % 4 = 1 ∨ j ≠ 4 - data.length % 4) :
    (sodium_base642bin sc bin n (data ++ List.replicate j 61)).1 ≠ 0 := by
  intro h
  obtain ⟨pre, k, hshape, hpre, hle, hk⟩ := sodium_base642bin_ok_shape sc bin n _ h
  obtain ⟨hl, hkj⟩ := data_padding_unique sc pre data k j hpre
    (fun c hc => base64_data_char_recognised sc c (hdata c hc)) hshape.symm
  rw [hl] at hle hk
  omega

/-! ### `verify_signature` and the two decoding steps -/

theorem verify_signature_unfold (sc : Bool) (init : Int) (prim : VerifyPrim) (m s p : List Nat) :
    verify_signature sc init prim m s p =
      if init < 0 then false
      else if (sodium_base642bin sc (List.replicate 64 0) 64 s).1 ≠ 0 then false
      else if (sodium_base642bin sc (List.replicate 32 0) 32 p).1 ≠ 0 then false
      else decide (prim (sodium_base642bin sc (List.replicate 64 0) 64 s).2 m
        (sodium_base642bin sc (List.replicate 32 0) 32 p).2 = 0) := by
  simp [verify_signature, crypto_sign_BYTES, crypto_sign_PUBLICKEYBYTES]

theorem verify_signature_sig_rejected (sc : Bool) (init : Int) (prim : VerifyPrim) (m s p : List Nat)
    (h : (sodium_base642bin sc (List.replicate 64 0) 64 s).1 ≠ 0) :
    verify_signature sc init prim m s p = false := by
  rw [verify_signature_unfold]
  by_cases hi : init < 0
  · rw [if_pos hi]
  · rw [if_neg hi, if_pos h]

theorem verify_signature_key_rejected (sc : Bool) (init : Int) (prim : VerifyPrim) (m s p : List Nat)
    (h : (sodium_base642bin sc (List.replicate 32 0) 32 p).1 ≠ 0) :
    verify_signature sc init prim m s p = false := by
  rw [verify_signature_unfold]
  by_cases hi : init < 0
  · rw [if_pos hi]
  · rw [if_neg hi]
    by_cases hs : (sodium_base642bin sc (List.replicate 64 0) 64 s).1 ≠ 0
    · rw [if_pos hs]
    · rw [if_neg hs, if_pos h]

/-- On two encoded byte strings that fit the buffers, `verify_signature` is the
verdict of the primitive on the zero-filled buffers. -/
theorem verify_signature_base64 (sc : Bool) (init : Int) (prim : VerifyPrim) (m sb pb : List Nat)
    (hinit : ¬ init < 0) (hs : is_bytes sb) (hp : is_bytes pb)
    (hsl : sb.length ≤ 64) (hpl : pb.length ≤ 32) :
    verify_signature sc init prim m (base64 sb) (base64 pb) =
      decide (prim (sb ++ List.replicate (64 - sb.length) 0) m
        (pb ++ List.replicate (32 - pb.length) 0) = 0) := by
  rw [verify_signature_unfold, sodium_base642bin_base64 sc 64 sb hs hsl,
    sodium_base642bin_base64 sc 32 pb hp hpl]
  simp [hinit]

/-! ## Claims -/

/-- C1: `verify_signature` returns true exactly when `sodium_init()` does not
fail, the signature text decodes into the 64-byte buffer, the key text decodes
into the 32-byte buffer and the detached-verification primitive returns 0 on
(signature buffer, message, key buffer); in every other case it returns false.
The function is total: it has no exceptional outcome. -/
theorem verify_signature_true_iff (sc : Bool) (init : Int) (prim : VerifyPrim)
    (m s p : List Nat) :
    (verify_signature sc init prim m s p = true ↔
      ¬ init < 0 ∧
      (sodium_base642bin sc (List.replicate crypto_sign_BYTES 0) crypto_sign_BYTES s).1 = 0 ∧
      (sodium_base642bin sc (List.replicate crypto_sign_PUBLICKEYBYTES 0)
        crypto_sign_PUBLICKEYBYTES p).1 = 0 ∧
      prim (sodium_base642bin sc (List.replicate crypto_sign_BYTES 0) crypto_sign_BYTES s).2 m
        (sodium_base642bin sc (List.replicate crypto_sign_PUBLICKEYBYTES 0)
          crypto_sign_PUBLICKEYBYTES p).2 = 0) ∧
    (verify_signature sc init prim m s p = false ↔
      init < 0 ∨
      (sodium_base642bin sc (List.replicate crypto_sign_BYTES 0) crypto_sign_BYTES s).1 ≠ 0 ∨
      (sodium_base642bin sc (List.replicate crypto_sign_PUBLICKEYBYTES 0)
        crypto_sign_PUBLICKEYBYTES p).1 ≠ 0 ∨
      prim (sodium_base642bin sc (List.replicate crypto_sign_BYTES 0) crypto_sign_BYTES s).2 m
        (sodium_base642bin sc (List.replicate crypto_sign_PUBLICKEYBYTES 0)
          crypto_sign_PUBLICKEYBYTES p).2 ≠ 0) := by
  rw [verify_signature_unfold]
  show (_ ↔ ¬ init < 0 ∧ (sodium_base642bin sc (List.replicate 64 0) 64 s).1 = 0 ∧
      (sodium_base642bin sc (List.replicate 32 0) 32 p).1 = 0 ∧
      prim (sodium_base642bin sc (List.replicate 64 0) 64 s).2 m
        (sodium_base642bin sc (List.replicate 32 0) 32 p).2 = 0) ∧
    (_ ↔ init < 0 ∨ (sodium_base642bin sc (List.replicate 64 0) 64 s).1 ≠ 0 ∨
      (sodium_base642bin sc (List.replicate 32 0) 32 p).1 ≠ 0 ∨
      prim (sodium_base642bin sc (List.replicate 64 0) 64 s).2 m
        (sodium_base642bin sc (List.replicate 32 0) 32 p).2 ≠ 0)
  generalize sodium_base642bin sc (List.replicate 64 0) 64 s = rs
  generalize sodium_base642bin sc (List.replicate 32 0) 32 p = rp
  by_cases hi : init < 0
  · simp [hi]
  · by_cases h1 : rs.1 = 0
    · by_cases h2 : rp.1 = 0
      · simp [hi, h1, h2]
      · simp [hi, h1, h2]
    · simp [hi, h1]

/-- C2 at a failing input: the first 63 bytes of the signature of RFC 8032
test 2, encoded as padded base64, are a signature text that decodes to 63
bytes, not 64; with any primitive that accepts the test vector, as Ed25519
verification does, `verify_signature` returns true on it. -/
theorem verify_signature_accepts_truncated_signature (sc : Bool) (prim : VerifyPrim)
    (h : prim test2_signature test2_message test2_public_key = 0) :
    (test2_signature.take 63).length = 63 ∧
    base64 (test2_signature.take 63) = test2_signature_text_63 ∧
    base64 test2_public_key = test2_public_key_text ∧
    verify_signature sc 0 prim test2_message test2_signature_text_63
      test2_public_key_text = true := by
  have t1 : base64 (test2_signature.take 63) = test2_signature_text_63 := by decide
  have t2 : base64 test2_public_key = test2_public_key_text := by decide
  refine ⟨by decide, t1, t2, ?_⟩
  rw [← t1, ← t2]
  rw [verify_signature_base64 sc 0 prim test2_message (test2_signature.take 63) test2_public_key
    (by decide) (by decide) (by decide) (by decide) (by decide)]
  have e1 : test2_signature.take 63 ++ List.replicate (64 - (test2_signature.take 63).length) 0 =
      test2_signature := by decide
  have e2 : test2_public_key ++ List.replicate (32 - test2_public_key.length) 0 =
      test2_public_key := by decide
  rw [e1, e2, h]
  rfl

/-- Witness for C2: the primitive that accepts test 2 only, where plain `char`
is signed. -/
theorem verify_signature_accepts_truncated_signature_witness :
    test2_prim test2_signature test2_message test2_public_key = 0 ∧
    (test2_signature.take 63).length = 63 ∧
    base64 (test2_signature.take 63) = test2_signature_text_63 ∧
    base64 test2_public_key = test2_public_key_text ∧
    verify_signature true 0 test2_prim test2_message test2_signature_text_63
      test2_public_key_text = true :=
  ⟨by decide, verify_signature_accepts_truncated_signature true test2_prim (by decide)⟩

/-- Texts that encode more bytes than a buffer holds are rejected: the encoding
of more than 64 bytes is not accepted as a signature and the encoding of more
than 32 bytes is not accepted as a public key. -/
theorem verify_signature_rejects_longer (sc : Bool) (init : Int) (prim : VerifyPrim)
    (m s p b : List Nat) (hb : is_bytes b) :
    (64 < b.length → verify_signature sc init prim m (base64 b) p = false) ∧
    (32 < b.length → verify_signature sc init prim m s (base64 b) = false) := by
  constructor
  · intro hl
    apply verify_signature_sig_rejected
    rw [sodium_base642bin_base64_too_long sc _ 64 b hb hl]
    decide
  · intro hl
    apply verify_signature_key_rejected
    rw [sodium_base642bin_base64_too_long sc _ 32 b hb hl]
    decide

/-- C3 fails when `sodium_init()` fails: the signature of test 2 is accepted by
the primitive for the message and key of test 2, yet `verify_signature`
returns false on its encoding. -/
theorem verify_signature_valid_init_failure :
    test2_prim test2_signature test2_message test2_public_key = 0 ∧
    verify_signature true (-1) test2_prim test2_message (base64 test2_signature)
      (base64 test2_public_key) = false :=
  ⟨by decide, by simp [verify_signature]⟩

/-- C3, amended: when `sodium_init()` does not fail, for every message `m`,
every 64-byte signature `sig` and every 32-byte public key `pk`,
`verify_signature m (base64 sig) (base64 pk)` is true if and only if the
verification primitive accepts `sig` over exactly `m` under exactly `pk`; in
particular it is true for the signature made with a valid key pair. -/
theorem verify_signature_valid_iff (sc : Bool) (init : Int) (prim : VerifyPrim)
    (m sig pk : List Nat) (hinit : ¬ init < 0)
    (hsig : is_bytes sig) (hsl : sig.length = crypto_sign_BYTES)
    (hpk : is_bytes pk) (hpl : pk.length = crypto_sign_PUBLICKEYBYTES) :
    verify_signature sc init prim m (base64 sig) (base64 pk) = true ↔ prim sig m pk = 0 := by
  have hsl' : sig.length = 64 := hsl
  have hpl' : pk.length = 32 := hpl
  rw [verify_signature_base64 sc init prim m sig pk hinit hsig hpk (by omega) (by omega)]
  simp [hsl', hpl']

/-- Witness for C3 (amended): test 2 with a successful initialisation. -/
theorem verify_signature_valid_iff_witness :
    verify_signature true 0 test2_prim test2_message (base64 test2_signature)
      (base64 test2_public_key) = true ↔
    test2_prim test2_signature test2_message test2_public_key = 0 :=
  verify_signature_valid_iff true 0 test2_prim test2_message test2_signature test2_public_key
    (by decide) (by decide) (by decide) (by decide) (by decide)

set_option maxRecDepth 100000 in
/-- C4 at a failing input, where plain `char` is signed: the byte `0xAB` is not
a character of the alphabet, and the decoder reads it as the character `/`.
The key text of test 1 with `/` replaced by `0xAB` is accepted with the
signature and the message of test 1. -/
theorem verify_signature_accepts_high_byte :
    0xAB ∈ test1_public_key_text_0xAB ∧ ¬ std_base64_char 0xAB ∧
    verify_signature true 0 test1_prim test1_message (base64 test1_signature)
      test1_public_key_text_0xAB = true := by
  decide

/-- Characters below 128 outside the alphabet are rejected: a text that contains
a character with a code below 128 outside the standard base64 alphabet `A-Z`,
`a-z`, `0-9`, `+`, `/`, `=` (or any byte outside the alphabet where plain
`char` is unsigned) makes `verify_signature` return false as the signature
text, for every message and every key text, and as the key text, for every
signature text. -/
theorem verify_signature_rejects_foreign_char (sc : Bool) (init : Int) (prim : VerifyPrim)
    (m s p t : List Nat) (c : Nat) (hc : c ∈ t) (hbad : ¬ std_base64_char c)
    (hbyte : c < 128 ∨ (sc = false ∧ c < 256)) :
    verify_signature sc init prim m t p = false ∧
    verify_signature sc init prim m s t = false :=
  ⟨verify_signature_sig_rejected sc init prim m t p
      (sodium_base642bin_bad_char sc _ 64 t c hc hbad hbyte),
    verify_signature_key_rejected sc init prim m s t
      (sodium_base642bin_bad_char sc _ 32 t c hc hbad hbyte)⟩

/-- Example: the URL-safe character `-` in the text `A-AA`, with a primitive
that accepts everything. -/
theorem verify_signature_rejects_foreign_char_example :
    verify_signature true 0 (fun _ _ _ => 0) test2_message [65, 45, 65, 65]
      (base64 test2_public_key) = false ∧
    verify_signature true 0 (fun _ _ _ => 0) test2_message (base64 test2_signature)
      [65, 45, 65, 65] = false :=
  verify_signature_rejects_foreign_char true 0 (fun _ _ _ => 0) test2_message
    (base64 test2_signature) (base64 test2_public_key) [65, 45, 65, 65] 45
    (by decide) (by decide) (by decide)

/-- C5: data characters whose number is not a multiple of four, followed by a
number of `=` other than the number that completes the last group of four
(none, too few or too many; any number when a single character is left over),
are a text that makes `verify_signature` return false, as the signature text
and as the key text, for every message and every other input. -/
theorem verify_signature_rejects_bad_padding (sc : Bool) (init : Int) (prim : VerifyPrim)
    (m s p data : List Nat) (j : Nat)
    (hdata : ∀ c ∈ data, base64_data_char c) (hmod : data.length % 4 ≠ 0)
    (hj : data.length % 4 = 1 ∨ j ≠ 4 - data.length % 4) :
    verify_signature sc init prim m (data ++ List.replicate j 61) p = false ∧
    verify_signature sc init prim m s (data ++ List.replicate j 61) = false :=
  ⟨verify_signature_sig_rejected sc init prim m _ p
      (sodium_base642bin_bad_padding sc _ 64 data j hdata hmod hj),
    verify_signature_key_rejected sc init prim m s _
      (sodium_base642bin_bad_padding sc _ 32 data j hdata hmod hj)⟩

/-- Witness for C5: the text `AA=`, one `=` short of `AA==`, with a primitive
that accepts everything. -/
theorem verify_signature_rejects_bad_padding_witness :
    verify_signature true 0 (fun _ _ _ => 0) test2_message ([65, 65] ++ List.replicate 1 61)
      (base64 test2_public_key) = false ∧
    verify_signature true 0 (fun _ _ _ => 0) test2_message (base64 test2_signature)
      ([65, 65] ++ List.replicate 1 61) = false :=
  verify_signature_rejects_bad_padding true 0 (fun _ _ _ => 0) test2_message
    (base64 test2_signature) (base64 test2_public_key) [65, 65] 1
    (by decide) (by decide) (Or.inr (by decide))

theorem string_of_ptr_getD (a : Option (List Nat)) :
    string_of_ptr a = string_of_c_str (a.getD []) := by
  cases a <;> rfl

/-- The result of `verify_signature_c` in terms of the bytes its pointers point
at. -/
theorem verify_signature_c_unfold (sc : Bool) (init : Int) (prim : VerifyPrim)
    (message sig_base64 pubkey_base64 : Option (List Nat)) :
    verify_signature_c sc init prim message sig_base64 pubkey_base64 =
      (if verify_signature sc init prim (string_of_c_str (message.getD []))
          (string_of_c_str (sig_base64.getD [])) (string_of_c_str (pubkey_base64.getD []))
        then 1 else 0) ∧
    (verify_signature_c sc init prim message sig_base64 pubkey_base64 = 0 ∨
      verify_signature_c sc init prim message sig_base64 pubkey_base64 = 1) := by
  constructor
  · simp only [verify_signature_c, string_of_ptr_getD]
  · unfold verify_signature_c
    simp only
    split_ifs
    · exact Or.inr rfl
    · exact Or.inl rfl

/-- The exit code of `main` in terms of the bytes the entries of `argv` point
at. -/
theorem main_unfold (sc : Bool) (init : Int) (prim : VerifyPrim) (argv : List (List Nat)) :
    main sc init prim argv =
      (if argv.length < 4 then 2
       else if verify_signature sc init prim (string_of_c_str (argv.getD 1 []))
          (string_of_c_str (argv.getD 2 [])) (string_of_c_str (argv.getD 3 []))
        then 0 else 1) ∧
    (main sc init prim argv = 0 ↔
      4 ≤ argv.length ∧
      verify_signature sc init prim (string_of_c_str (argv.getD 1 []))
        (string_of_c_str (argv.getD 2 [])) (string_of_c_str (argv.getD 3 [])) = true) ∧
    (main sc init prim argv = 1 ↔
      4 ≤ argv.length ∧
      verify_signature sc init prim (string_of_c_str (argv.getD 1 []))
        (string_of_c_str (argv.getD 2 [])) (string_of_c_str (argv.getD 3 [])) = false) ∧
    (main sc init prim argv = 2 ↔ argv.length < 4) := by
  have hmain : main sc init prim argv =
      (if argv.length < 4 then 2
       else if verify_signature sc init prim (string_of_c_str (argv.getD 1 []))
          (string_of_c_str (argv.getD 2 [])) (string_of_c_str (argv.getD 3 []))
        then 0 else 1) := by
    unfold main verify_signature_c
    simp only [string_of_ptr_getD, List.getD_eq_getElem?_getD, List.get?_eq_getElem?]
    by_cases h4 : argv.length < 4
    · simp [h4]
    · simp only [h4, if_false]
      split_ifs <;> simp_all
  refine ⟨hmain, ?_⟩
  rw [hmain]
  generalize verify_signature sc init prim (string_of_c_str (argv.getD 1 []))
    (string_of_c_str (argv.getD 2 [])) (string_of_c_str (argv.getD 3 [])) = r
  by_cases h4 : argv.length < 4
  · have h4' : ¬ 4 ≤ argv.length := by omega
    simp [h4, h4']
  · have h4' : 4 ≤ argv.length := by omega
    cases r <;> simp [h4, h4']

/-- A zero-terminated string without a zero byte is read back whole by
`std::string(p)`. -/
theorem string_of_c_str_terminated (s : List Nat) (h : 0 ∉ s) :
    string_of_c_str (s ++ [0]) = s := by
  unfold string_of_c_str
  induction s with
  | nil => simp
  | cons x l ih =>
    have hx : x ≠ 0 := fun e => h (by simp [e])
    have hl : 0 ∉ l := fun e => h (by simp [e])
    simp [List.takeWhile, hx]
    simpa using ih hl

theorem string_of_ptr_terminated (a : Option (List Nat)) (h : ∀ s, a = some s → 0 ∉ s) :
    string_of_ptr (a.map (fun s => s ++ [0])) = a.getD [] := by
  cases a with
  | none => rfl
  | some s => exact string_of_c_str_terminated s (h s rfl)

/-- C6: every argument is a null pointer (`none`) or points at a C string: the
bytes of a string `s` without zero byte, followed by the terminating zero
byte.  On such arguments `verify_signature_c` returns 1 when
`verify_signature` returns true on the three strings, each null pointer
replaced by the empty string, and 0 otherwise.  On all pointers `p`, `q`, `r`
whatsoever it returns 0 or 1. -/
theorem verify_signature_c_result (sc : Bool) (init : Int) (prim : VerifyPrim)
    (message sig_base64 pubkey_base64 p q r : Option (List Nat))
    (hm : ∀ s, message = some s → 0 ∉ s) (hs : ∀ s, sig_base64 = some s → 0 ∉ s)
    (hp : ∀ s, pubkey_base64 = some s → 0 ∉ s) :
    verify_signature_c sc init prim (message.map (fun s => s ++ [0]))
        (sig_base64.map (fun s => s ++ [0])) (pubkey_base64.map (fun s => s ++ [0])) =
      (if verify_signature sc init prim (message.getD []) (sig_base64.getD [])
          (pubkey_base64.getD []) then 1 else 0) ∧
    (verify_signature_c sc init prim p q r = 0 ∨ verify_signature_c sc init prim p q r = 1) := by
  refine ⟨?_, (verify_signature_c_unfold sc init prim p q r).2⟩
  unfold verify_signature_c
  simp only [string_of_ptr_terminated _ hm, string_of_ptr_terminated _ hs,
    string_of_ptr_terminated _ hp]

/-- Witness for C6: the message and the signature text of test 2 and a null
pointer for the key: the result is that of `verify_signature` on the two
strings and the empty key text. -/
theorem verify_signature_c_result_witness :
    verify_signature_c true 0 test2_prim
        ((some test2_message).map (fun s => s ++ [0]))
        ((some (base64 test2_signature)).map (fun s => s ++ [0]))
        ((none : Option (List Nat)).map (fun s => s ++ [0])) =
      (if verify_signature true 0 test2_prim ((some test2_message).getD [])
          ((some (base64 test2_signature)).getD []) ((none : Option (List Nat)).getD [])
        then 1 else 0) ∧
    (verify_signature_c true 0 test2_prim none none none = 0 ∨
      verify_signature_c true 0 test2_prim none none none = 1) :=
  verify_signature_c_result true 0 test2_prim (some test2_message)
    (some (base64 test2_signature)) none none none none
    (fun s h => by cases h; decide) (fun s h => by cases h; decide) (fun s h => by cases h)

theorem getD_map_terminated (args : List (List Nat)) (hz : ∀ s ∈ args, 0 ∉ s) (i : Nat)
    (hi : i < args.length) :
    string_of_c_str ((args.map (fun s => s ++ [0])).getD i []) = args.getD i [] := by
  rw [List.getD_eq_getElem _ _ (by simpa using hi), List.getD_eq_getElem _ _ hi,
    List.getElem_map]
  exact string_of_c_str_terminated _ (hz _ (List.getElem_mem _))

/-- C7: `argv` holds the C strings `args`, each without zero byte and followed
by its terminating zero byte, and `argc` is their number.  The exit code of
the CLI is 2 when `argc < 4`; otherwise it is 0 when `verify_signature` is
true on `argv[1]`, `argv[2]`, `argv[3]` and 1 when it is false.  Hence the
exit code is 0 only if the verification succeeded, and the usage-error code 2
is not the invalid-signature code 1. -/
theorem main_exit_code (sc : Bool) (init : Int) (prim : VerifyPrim) (args : List (List Nat))
    (hz : ∀ s ∈ args, 0 ∉ s) :
    main sc init prim (args.map (fun s => s ++ [0])) =
      (if args.length < 4 then 2
       else if verify_signature sc init prim (args.getD 1 []) (args.getD 2 []) (args.getD 3 [])
        then 0 else 1) ∧
    (main sc init prim (args.map (fun s => s ++ [0])) = 0 ↔
      4 ≤ args.length ∧
      verify_signature sc init prim (args.getD 1 []) (args.getD 2 []) (args.getD 3 []) = true) ∧
    (main sc init prim (args.map (fun s => s ++ [0])) = 1 ↔
      4 ≤ args.length ∧
      verify_signature sc init prim (args.getD 1 []) (args.getD 2 []) (args.getD 3 []) = false) ∧
    (main sc init prim (args.map (fun s => s ++ [0])) = 2 ↔ args.length < 4) := by
  have hmain : main sc init prim (args.map (fun s => s ++ [0])) =
      (if args.length < 4 then 2
       else if verify_signature sc init prim (args.getD 1 []) (args.getD 2 []) (args.getD 3 [])
        then 0 else 1) := by
    rw [(main_unfold sc init prim _).1, List.length_map]
    by_cases h4 : args.length < 4
    · rw [if_pos h4, if_pos h4]
    · rw [if_neg h4, if_neg h4, getD_map_terminated args hz 1 (by omega),
        getD_map_terminated args hz 2 (by omega), getD_map_terminated args hz 3 (by omega)]
  refine ⟨hmain, ?_⟩
  rw [hmain]
  generalize verify_signature sc init prim (args.getD 1 []) (args.getD 2 [])
    (args.getD 3 []) = r
  by_cases h4 : args.length < 4
  · have h4' : ¬ 4 ≤ args.length := by omega
    simp [h4, h4']
  · have h4' : 4 ≤ args.length := by omega
    cases r <;> simp [h4, h4']

/-- Witness for C7: the program name `v` followed by the message, the
signature text and the key text of test 2. -/
theorem main_exit_code_witness :
    main true 0 test2_prim
        ([[118], test2_message, base64 test2_signature, base64 test2_public_key].map
          (fun s => s ++ [0])) =
      (if [[118], test2_message, base64 test2_signature, base64 test2_public_key].length < 4
        then 2
       else if verify_signature true 0 test2_prim
          ([[118], test2_message, base64 test2_signature, base64 test2_public_key].getD 1 [])
          ([[118], test2_message, base64 test2_signature, base64 test2_public_key].getD 2 [])
          ([[118], test2_message, base64 test2_signature, base64 test2_public_key].getD 3 [])
        then 0 else 1) :=
  (main_exit_code true 0 test2_prim
    [[118], test2_message, base64 test2_signature, base64 test2_public_key]
    (by decide)).1

/-- The binding hands C strings to `verify_signature_c`: each of its three
arguments is cut at its first zero byte. -/
theorem pyvalidate_verify_eq (sc : Bool) (init : Int) (prim : VerifyPrim) (m s p : List Nat) :
    pyvalidate_verify sc init prim m s p =
      verify_signature sc init prim (m.takeWhile (fun b => b ≠ 0)) (s.takeWhile (fun b => b ≠ 0))
        (p.takeWhile (fun b => b ≠ 0)) := by
  have hcut : ∀ l : List Nat, string_of_ptr (c_str l) = l.takeWhile (fun b => b ≠ 0) := by
    intro l
    simp only [c_str, string_of_ptr, string_of_c_str]
    induction l with
    | nil => simp
    | cons x l ih =>
      by_cases hx : x = 0
      · simp [List.takeWhile, hx]
      · simpa [List.takeWhile, hx] using ih
  unfold pyvalidate_verify verify_signature_c
  simp only [hcut]
  cases verify_signature sc init prim (m.takeWhile (fun b => b ≠ 0))
    (s.takeWhile (fun b => b ≠ 0)) (p.takeWhile (fun b => b ≠ 0)) <;> simp

/-- C8 at a failing input: for a message with a zero byte the binding checks
the signature against the bytes before the zero byte only.  With a primitive
that, as Ed25519 verification does, accepts the signature of RFC 8032 test 2
for the message `0x72` and not for the message `0x72 0x00 0x21`, the binding
returns true on the second message while `verify_signature` returns false. -/
theorem pyvalidate_verify_cuts_message (sc : Bool) (prim : VerifyPrim)
    (h1 : prim test2_signature test2_message test2_public_key = 0)
    (h2 : prim test2_signature [0x72, 0x00, 0x21] test2_public_key ≠ 0) :
    pyvalidate_verify sc 0 prim [0x72, 0x00, 0x21] (base64 test2_signature)
      (base64 test2_public_key) = true ∧
    verify_signature sc 0 prim [0x72, 0x00, 0x21] (base64 test2_signature)
      (base64 test2_public_key) = false := by
  have e1 : test2_signature ++ List.replicate (64 - test2_signature.length) 0 =
      test2_signature := by decide
  have e2 : test2_public_key ++ List.replicate (32 - test2_public_key.length) 0 =
      test2_public_key := by decide
  have c1 : (base64 test2_signature).takeWhile (fun b => b ≠ 0) = base64 test2_signature := by
    decide
  have c2 : (base64 test2_public_key).takeWhile (fun b => b ≠ 0) = base64 test2_public_key := by
    decide
  have c3 : ([0x72, 0x00, 0x21] : List Nat).takeWhile (fun b => b ≠ 0) = test2_message := by
    decide
  constructor
  · rw [pyvalidate_verify_eq, c1, c2, c3,
      verify_signature_base64 sc 0 prim _ test2_signature test2_public_key
        (by decide) (by decide) (by decide) (by decide) (by decide), e1, e2, h1]
    rfl
  · rw [verify_signature_base64 sc 0 prim _ test2_signature test2_public_key
        (by decide) (by decide) (by decide) (by decide) (by decide), e1, e2]
    simp [h2]

/-- Witness for C8: the primitive that accepts test 2 only, where plain `char`
is signed. -/
theorem pyvalidate_verify_cuts_message_witness :
    pyvalidate_verify true 0 test2_prim [0x72, 0x00, 0x21] (base64 test2_signature)
      (base64 test2_public_key) = true ∧
    verify_signature true 0 test2_prim [0x72, 0x00, 0x21] (base64 test2_signature)
      (base64 test2_public_key) = false :=
  pyvalidate_verify_cuts_message true test2_prim (by decide) (by decide)

theorem verify_signature_init_sign (sc : Bool) (i1 i2 : Int) (prim : VerifyPrim) (m s p : List Nat)
    (h : i1 < 0 ↔ i2 < 0) :
    verify_signature sc i1 prim m s p = verify_signature sc i2 prim m s p := by
  rw [verify_signature_unfold, verify_signature_unfold]
  by_cases h1 : i1 < 0
  · rw [if_pos h1, if_pos (h.mp h1)]
  · rw [if_neg h1, if_neg (fun h2 => h1 (h.mpr h2))]

/-- C9: the result of a call of `verify_signature` is a function of its three
arguments and of whether `sodium_init()` fails in that call: after any two
sequences of earlier calls, two calls with identical arguments and the same
initialisation outcome return identical results. -/
theorem verify_signature_call_deterministic (sc : Bool) (prim : VerifyPrim) (g0 : SodiumGlobal)
    (before1 before2 : List Call) (fails1 fails2 : Bool) (m s p : List Nat)
    (hsame : (sodium_init fails1 (run_calls sc prim g0 before1)).1 < 0 ↔
      (sodium_init fails2 (run_calls sc prim g0 before2)).1 < 0) :
    (verify_signature_call sc prim fails1 (run_calls sc prim g0 before1) m s p).1 =
      (verify_signature_call sc prim fails2 (run_calls sc prim g0 before2) m s p).1 := by
  unfold verify_signature_call
  exact verify_signature_init_sign sc _ _ prim m s p hsame

/-- Witness for C9: the first call of a process and a call that follows an
earlier call ( `sodium_init()` returns 0 in the first and 1 in the second). -/
theorem verify_signature_call_deterministic_witness :
    (verify_signature_call true test2_prim false (run_calls true test2_prim ⟨false⟩ [])
      test2_message (base64 test2_signature) (base64 test2_public_key)).1 =
    (verify_signature_call true test2_prim false
      (run_calls true test2_prim ⟨false⟩ [⟨false, [1, 2], [65, 65], []⟩]) test2_message
      (base64 test2_signature) (base64 test2_public_key)).1 :=
  verify_signature_call_deterministic true test2_prim ⟨false⟩ []
    [⟨false, [1, 2], [65, 65], []⟩] false false test2_message (base64 test2_signature)
    (base64 test2_public_key) (by decide)

theorem is_bytes_append_zeros (b : List Nat) (k : Nat) (hb : is_bytes b) :
    is_bytes (b ++ List.replicate k 0) := by
  intro x hx
  rcases List.mem_append.mp hx with hx | hx
  · exact hb x hx
  · rw [List.eq_of_mem_replicate hx]; decide

/-- Decoding the encoding of `b` and of `b` followed by zero bytes up to the
size of the buffer gives the same status and the same buffer. -/
theorem sodium_base642bin_zero_fill (sc : Bool) (n : Nat) (b : List Nat) (hb : is_bytes b)
    (hl : b.length ≤ n) :
    sodium_base642bin sc (List.replicate n 0) n (base64 (b ++ List.replicate (n - b.length) 0)) =
      sodium_base642bin sc (List.replicate n 0) n (base64 b) := by
  rw [sodium_base642bin_base64 sc n b hb hl,
    sodium_base642bin_base64 sc n _ (is_bytes_append_zeros b _ hb) (by simp; omega)]
  have : n - (b ++ List.replicate (n - b.length) 0).length = 0 := by simp; omega
  rw [this]
  simp

/-- C10: the encoding of fewer than 32 bytes `bk` passes the decoding step of
the key and leaves `bk` followed by zero bytes in the key buffer, so that
`verify_signature` gives the same result on `base64 bk` and on the encoding of
`bk` followed by `32 - k` zero bytes; the same holds for the encoding of fewer
than 64 bytes `bs` as the signature text, with zero fill up to 64. -/
theorem verify_signature_zero_fill (sc : Bool) (init : Int) (prim : VerifyPrim) (m s p bk bs : List Nat)
    (hbk : is_bytes bk) (hlk : bk.length < crypto_sign_PUBLICKEYBYTES)
    (hbs : is_bytes bs) (hls : bs.length < crypto_sign_BYTES) :
    (sodium_base642bin sc (List.replicate crypto_sign_PUBLICKEYBYTES 0) crypto_sign_PUBLICKEYBYTES
        (base64 bk) =
      (0, bk ++ List.replicate (crypto_sign_PUBLICKEYBYTES - bk.length) 0) ∧
     verify_signature sc init prim m s (base64 bk) =
      verify_signature sc init prim m s
        (base64 (bk ++ List.replicate (crypto_sign_PUBLICKEYBYTES - bk.length) 0))) ∧
    (sodium_base642bin sc (List.replicate crypto_sign_BYTES 0) crypto_sign_BYTES (base64 bs) =
      (0, bs ++ List.replicate (crypto_sign_BYTES - bs.length) 0) ∧
     verify_signature sc init prim m (base64 bs) p =
      verify_signature sc init prim m
        (base64 (bs ++ List.replicate (crypto_sign_BYTES - bs.length) 0)) p) := by
  have hlk' : bk.length ≤ 32 := Nat.le_of_lt hlk
  have hls' : bs.length ≤ 64 := Nat.le_of_lt hls
  refine ⟨⟨sodium_base642bin_base64 sc 32 bk hbk hlk', ?_⟩,
    ⟨sodium_base642bin_base64 sc 64 bs hbs hls', ?_⟩⟩
  · rw [verify_signature_unfold, verify_signature_unfold]
    show _ = if init < 0 then false else
      if (sodium_base642bin sc (List.replicate 64 0) 64 s).1 ≠ 0 then false else
      if (sodium_base642bin sc (List.replicate 32 0) 32
        (base64 (bk ++ List.replicate (32 - bk.length) 0))).1 ≠ 0 then false else
      decide (prim (sodium_base642bin sc (List.replicate 64 0) 64 s).2 m
        (sodium_base642bin sc (List.replicate 32 0) 32
          (base64 (bk ++ List.replicate (32 - bk.length) 0))).2 = 0)
    rw [sodium_base642bin_zero_fill sc 32 bk hbk hlk']
  · rw [verify_signature_unfold, verify_signature_unfold]
    show _ = if init < 0 then false else
      if (sodium_base642bin sc (List.replicate 64 0) 64
        (base64 (bs ++ List.replicate (64 - bs.length) 0))).1 ≠ 0 then false else
      if (sodium_base642bin sc (List.replicate 32 0) 32 p).1 ≠ 0 then false else
      decide (prim (sodium_base642bin sc (List.replicate 64 0) 64
        (base64 (bs ++ List.replicate (64 - bs.length) 0))).2 m
        (sodium_base642bin sc (List.replicate 32 0) 32 p).2 = 0)
    rw [sodium_base642bin_zero_fill sc 64 bs hbs hls']


/-- Witness for C10: the first 31 bytes of the key of test 1 and the first 63
bytes of the signature of test 2. -/
theorem verify_signature_zero_fill_witness :
    (sodium_base642bin true (List.replicate crypto_sign_PUBLICKEYBYTES 0)
        crypto_sign_PUBLICKEYBYTES (base64 (test1_public_key.take 31)) =
      (0, test1_public_key.take 31 ++
        List.replicate (crypto_sign_PUBLICKEYBYTES - (test1_public_key.take 31).length) 0) ∧
     verify_signature true 0 test2_prim test2_message (base64 test2_signature)
        (base64 (test1_public_key.take 31)) =
      verify_signature true 0 test2_prim test2_message (base64 test2_signature)
        (base64 (test1_public_key.take 31 ++
          List.replicate (crypto_sign_PUBLICKEYBYTES - (test1_public_key.take 31).length) 0))) ∧
    (sodium_base642bin true (List.replicate crypto_sign_BYTES 0) crypto_sign_BYTES
        (base64 (test2_signature.take 63)) =
      (0, test2_signature.take 63 ++
        List.replicate (crypto_sign_BYTES - (test2_signature.take 63).length) 0) ∧
     verify_signature true 0 test2_prim test2_message (base64 (test2_signature.take 63))
        (base64 test2_public_key) =
      verify_signature true 0 test2_prim test2_message
        (base64 (test2_signature.take 63 ++
          List.replicate (crypto_sign_BYTES - (test2_signature.take 63).length) 0))
        (base64 test2_public_key)) :=
  verify_signature_zero_fill true 0 test2_prim test2_message (base64 test2_signature)
    (base64 test2_public_key) (test1_public_key.take 31) (test2_signature.take 63)
    (by decide) (by decide) (by decide) (by decide)

end Validation
